import Mathlib

/-!
Verification of the worker-thread orchestration and exported-block-device
lifecycle core of open-cas-linux, as a shallow embedding of
src/modules/cas_cache/exp_obj.c and the thread-management C source
(src/unnamed/part_000, lines 585-859).

Kernel calls (mutexes, atomics, wait queues, completions) are modelled by
explicit state passing: each C function becomes a Lean function from the
observable state it reads to the result it returns plus the state it leaves
behind, together with a trace of the externally visible actions it performs.
-/

namespace CasCache

/-- Outcome of a kernel-style call: success (`0` return), an error return
(`-code` in C, `code` recorded here as a positive errno number), or an
assertion failure (`BUG_ON` / `ENV_BUG_ON`, which halts the kernel rather
than returning). -/
inductive KRes
  | ok
  | err (code : Nat)
  | bug
deriving DecidableEq, Repr

/-- True exactly when the outcome is an error *return* (as opposed to
success or an assertion failure). -/
def KRes.isErrCode : KRes → Bool
  | .err _ => true
  | _ => false

/-- Errno numbers used by exp_obj.c (values from the Linux uapi headers). -/
def ENOMEM : Nat := 12

def EINVAL : Nat := 22

def EEXIST : Nat := 17

def ENODEV : Nat := 19

def EBUSY : Nat := 16

def ENAVAIL : Nat := 119

/-- Stand-in errno for error codes that exp_obj.c merely propagates from an
external callee (kobject_add, blk_mq_alloc_tag_set, cas_alloc_mq_disk,
bd_link_disk_holder, sysfs_create_link, ops->set_geometry). The concrete
value is chosen by the callee and is immaterial to every claim. -/
def ECALLEE : Nat := 5

/-- Largest value of a C `unsigned int`, as used by `_cas_exp_obj_open`'s
overflow guard (`dsk->openers == UINT_MAX`). -/
def UINT_MAX : Nat := 4294967295

/-! ### Open / close / lock / unlock (exp_obj.c lines 239-269, 589-622)

The opener count and the claimed flag are the state protected by
`dsk->openers_lock`; each operation below is one critical section. -/

/-- The mutex-protected fields of `struct cas_disk` read and written by
`_cas_exp_obj_open`, `_cas_exp_obj_close`, `cas_exp_obj_lock` and
`cas_exp_obj_unlock`: the opener count and the exclusive-claim flag. -/
structure DskOpenSt where
  openers : Nat
  claimed : Bool
deriving DecidableEq, Repr

/-- Embedding of `_cas_exp_obj_open` (exp_obj.c lines 239-257): result starts
as `-ENAVAIL`; if the device is not claimed then either the opener count is
at `UINT_MAX` and the result becomes `-EBUSY`, or the count is incremented
and the result becomes `0`. -/
def _cas_exp_obj_open (s : DskOpenSt) : KRes × DskOpenSt :=
  if s.claimed = false then
    if s.openers = UINT_MAX then
      (.err EBUSY, s)
    else
      (.ok, ⟨s.openers + 1, s.claimed⟩)
  else
    (.err ENAVAIL, s)

/-- Embedding of `_cas_exp_obj_close` (exp_obj.c lines 259-269):
`BUG_ON(dsk->openers == 0)`, then the opener count is decremented. -/
def _cas_exp_obj_close (s : DskOpenSt) : KRes × DskOpenSt :=
  if s.openers = 0 then
    (.bug, s)
  else
    (.ok, ⟨s.openers - 1, s.claimed⟩)

/-- Embedding of `cas_exp_obj_lock` (exp_obj.c lines 589-610): result starts
as `-EBUSY`; if the opener count is zero the claimed flag is set and the
result becomes `0`. -/
def cas_exp_obj_lock (s : DskOpenSt) : KRes × DskOpenSt :=
  if s.openers = 0 then
    (.ok, ⟨s.openers, true⟩)
  else
    (.err EBUSY, s)

/-- Embedding of `cas_exp_obj_unlock` (exp_obj.c lines 612-622): clears the
claimed flag and returns `0`. -/
def cas_exp_obj_unlock (s : DskOpenSt) : KRes × DskOpenSt :=
  (.ok, ⟨s.openers, false⟩)

/-! ### Destroy (exp_obj.c lines 624-653) -/

/-- The part of the exported-object state that `cas_exp_obj_destroy` reads:
whether the object was activated and whether its request queue was set up. -/
structure ExpObjSt where
  activated : Bool
  hasQueue : Bool
deriving DecidableEq, Repr

/-- Teardown actions `cas_exp_obj_destroy` can perform, in the order the
source names them. -/
inductive DAct
  | sysfs_remove_link
  | bd_release_from_disk
  | clear_dev_t
  | del_gendisk
  | blk_cleanup_queue
  | blk_mq_free_tag_set
  | put_disk
deriving DecidableEq, Repr

/-- Embedding of `cas_exp_obj_destroy` (exp_obj.c lines 624-653), taking the
`dsk->exp_obj` slot (`none` models a NULL pointer). A missing object yields
the `-ENODEV` early return with no teardown performed; otherwise the
activation-dependent teardown runs followed by the unconditional queue, tag
set and gendisk release. -/
def cas_exp_obj_destroy (exp_obj : Option ExpObjSt) : KRes × List DAct :=
  match exp_obj with
  | none => (.err ENODEV, [])
  | some o =>
      ((.ok),
        (if o.activated then
          [DAct.sysfs_remove_link, DAct.bd_release_from_disk,
            DAct.clear_dev_t, DAct.del_gendisk]
        else []) ++
        (if o.hasQueue then [DAct.blk_cleanup_queue] else []) ++
        [DAct.blk_mq_free_tag_set, DAct.put_disk])

/-! ### I/O queue worker run-loop (part_000 lines 607-642, 792-802)

`queue_thread_run` is a do-while loop: wait until the queue has pending
I/O or the stop flag is set, run the queue, and loop again while
`!atomic_read(&info->stop) || ocf_queue_pending_io(q)`. The environment
(cache engine enqueues, `_cas_stop_thread` setting the stop flag) is
modelled as a list of events, each describing what is delivered before the
thread passes its wait and what arrives between the drain and the loop
check. -/

/-- The cross-thread state observed by `queue_thread_run`: the queue's
pending-I/O count (`ocf_queue_pending_io`) and the stop flag
(`info->stop`). -/
structure QState where
  pending : Nat
  stop : Bool
deriving DecidableEq, Repr

/-- One step of environment behaviour around one pass of the worker:
`preArrivals` I/O items enqueued (and possibly the stop flag set) before
the thread gets past `wait_event_interruptible`, and `postArrivals` items
enqueued between `ocf_queue_run` and the loop-condition check. -/
structure QEvent where
  preArrivals : Nat
  setStop : Bool
  postArrivals : Nat
deriving DecidableEq, Repr

/-- Embedding of `ocf_queue_run` as seen from this loop: it drains every
item currently queued (the pending count it leaves is zero). -/
def ocf_queue_run (s : QState) : QState :=
  ⟨0, s.stop⟩

/-- The loop condition of `queue_thread_run`:
`!atomic_read(&info->stop) || ocf_queue_pending_io(q)`. -/
def queue_loop_cond (stop : Bool) (pending : Nat) : Bool :=
  (!stop) || (decide (0 < pending))

/-- Embedding of the `queue_thread_run` do-while loop over a list of
environment events. `none` means the run was still going (blocked or
looping) when the events ran out; `some s` means the loop condition became
false and the thread exited with the state `s` it observed there. -/
def queue_thread_run : List QEvent → QState → Option QState
  | [], _ => none
  | e :: evs, s =>
      let s1 : QState := ⟨s.pending + e.preArrivals, s.stop || e.setStop⟩
      if 0 < s1.pending ∨ s1.stop = true then
        let s2 : QState := ⟨(ocf_queue_run s1).pending + e.postArrivals, s1.stop⟩
        if queue_loop_cond s2.stop s2.pending then
          queue_thread_run evs s2
        else
          some s2
      else
        queue_thread_run evs s1

/-! ### Fastest-queue selection (part_000 lines 644-669)

`cache_get_fastest_porter_queue` scans the per-CPU porter queues keeping
the minimum pending count seen; the for-loop condition
`min_io && (i < cpus_no)` stops the scan as soon as the running minimum is
zero. The model works on the list of pending counts and returns the index
of the selected queue, the minimum found, and how many queues had their
pending count read. -/

/-- The for-loop of `cache_get_fastest_porter_queue`: `rest` is the list of
pending counts not yet visited, `i` the index of its first element, `minIdx`
and `minP` the index and pending count of the current best queue, `reads`
the number of `ocf_queue_pending_io` calls made so far. -/
def fqAux : List Nat → Nat → Nat → Nat → Nat → Nat × Nat × Nat
  | [], _, minIdx, minP, reads => (minIdx, minP, reads)
  | p :: rest, i, minIdx, minP, reads =>
      if minP = 0 then
        (minIdx, minP, reads)
      else if p < minP then
        fqAux rest (i + 1) i p (reads + 1)
      else
        fqAux rest (i + 1) minIdx minP (reads + 1)

/-- Embedding of `cache_get_fastest_porter_queue` over the list of pending
counts of the per-CPU queues. The empty list is unreachable in the source
(`ENV_BUG_ON(!cpus_no)`); the scan starts from queue 0, whose pending count
is read unconditionally. -/
def cache_get_fastest_porter_queue : List Nat → Nat × Nat × Nat
  | [] => (0, 0, 0)
  | p :: rest => fqAux rest 1 0 p 1

/-! ### Cleaner worker run-loop (part_000 lines 688-747, 846-851) -/

/-- Modelled from the spec: `OCF_CLEANER_DISABLE`, the "disabled" sentinel
interval the external cleaning engine's completion callback may deliver
(`_cas_cleaner_complete` stores it into `ms`). The constant lives in the
external OCF headers, outside src; only equality against it is ever tested,
so its numeric value is immaterial. -/
def OCF_CLEANER_DISABLE : Nat := 0

/-- How the cleaner blocks after a pass: `wait_event_interruptible` with no
timeout, or `wait_event_interruptible_timeout` with the given interval. -/
inductive CleanerWait
  | indefinite
  | timeout (ms : Nat)
deriving DecidableEq, Repr

/-- Observable outcome of one iteration of the `cleaner_thread_run` loop:
whether the loop exited, the kicked flag it leaves, the queue index a
cleaning pass was started on (if any), and how it then blocks (if at
all). -/
structure CleanerIterOut where
  exited : Bool
  kicked : Bool
  pass : Option Nat
  wait : Option CleanerWait
deriving DecidableEq, Repr

/-- The wake condition of both cleaner waits:
`atomic_read(&info->kicked) || atomic_read(&info->stop)`. -/
def cleaner_wait_wakes (kicked stop : Bool) : Bool :=
  kicked || stop

/-- Embedding of one iteration of the `cleaner_thread_run` loop, with `ms`
the interval the pass's completion callback delivered. If the stop flag is
set the loop breaks at once (no pass). Otherwise the kicked flag is
cleared, `ocf_cleaner_run` is started on the queue chosen by
`cache_get_fastest_porter_queue`, and after completion the thread blocks:
indefinitely when `ms = OCF_CLEANER_DISABLE`, else with timeout `ms`. -/
def cleaner_iteration (stop kicked : Bool) (pendings : List Nat) (ms : Nat) :
    CleanerIterOut :=
  if stop = true then
    ⟨true, kicked, none, none⟩
  else
    ⟨false, false, some (cache_get_fastest_porter_queue pendings).1,
      some (if ms = OCF_CLEANER_DISABLE then CleanerWait.indefinite
            else CleanerWait.timeout ms)⟩

/-! ### Activate (exp_obj.c lines 522-587) -/

/-- The environment `cas_exp_obj_activate` runs against: whether the
`kmalloc` of the path buffer succeeds, whether a file already exists at
`/dev/<name>` (`_cas_exp_obj_exists`), and whether `bd_claim_by_disk`
(holder link) and `sysfs_create_link` succeed. -/
structure ActEnv where
  kmallocOk : Bool
  pathExists : Bool
  bdClaimOk : Bool
  sysfsOk : Bool
deriving DecidableEq, Fintype, Repr

/-- OS-visible actions `cas_exp_obj_activate` can perform, in source
order. -/
inductive AAct
  | add_disk
  | bd_claim_by_disk
  | sysfs_create_link
  | bd_release_from_disk
  | del_gendisk
deriving DecidableEq, Repr

/-- Embedding of `cas_exp_obj_activate` (exp_obj.c lines 539-587), given
the current activation flag and the environment. Returns the call outcome,
the activation flag it leaves, and the trace of OS actions (including the
failing attempt). `BUG_ON(dsk->exp_obj->activated)` makes a second
activation an assertion failure before anything else happens; otherwise a
pre-existing `/dev` path is rejected with `-EEXIST` before `add_disk`, and
a holder-link or symlink failure deletes the gendisk again and resets the
flag. -/
def cas_exp_obj_activate (activated : Bool) (env : ActEnv) :
    KRes × Bool × List AAct :=
  if activated = true then
    (.bug, activated, [])
  else if env.kmallocOk = false then
    (.err ENOMEM, false, [])
  else if env.pathExists = true then
    (.err EEXIST, false, [])
  else if env.bdClaimOk = false then
    (.err ECALLEE, false, [AAct.add_disk, AAct.bd_claim_by_disk, AAct.del_gendisk])
  else if env.sysfsOk = false then
    (.err ECALLEE, false,
      [AAct.add_disk, AAct.bd_claim_by_disk, AAct.sysfs_create_link,
        AAct.bd_release_from_disk, AAct.del_gendisk])
  else
    (.ok, true, [AAct.add_disk, AAct.bd_claim_by_disk, AAct.sysfs_create_link])

/-! ### Create (exp_obj.c lines 402-506)

`cas_exp_obj_create` is a multi-step constructor with goto-style unwind
chains. The steps are modelled by an enum, the unwind chains by the lists
of undo actions the goto labels emit (with `kobject_put` immediately
running `_cas_exp_obj_release`, which frees the name, frees the object and
only then drops the module reference), and the held resources by a record
of flags so that the state left behind by a failing run can be compared
with the initial one. -/

/-- Maximum device-name buffer size (`DISK_NAME_LEN` from the Linux genhd
headers): names with `strlen >= DISK_NAME_LEN` are rejected. -/
def DISK_NAME_LEN : Nat := 32

/-- The fallible steps of `cas_exp_obj_create`, in execution order.
`devT` is `_cas_exp_obj_set_dev_t` (partition hiding plus minor
allocation); `geometry` is the optional `ops->set_geometry` call. -/
inductive CStep
  | alloc
  | kstrdup
  | moduleGet
  | kobject
  | tagSet
  | mqDisk
  | devT
  | geometry
deriving DecidableEq, Fintype, Repr

/-- The undo actions the error paths of `cas_exp_obj_create` perform. -/
inductive CUndo
  | free_obj
  | kfree_name
  | module_put
  | kobject_put
  | free_tag_set
  | cleanup_mq_disk
  | clear_dev_t
deriving DecidableEq, Repr

/-- Which construction step each undo action reverses. -/
def CUndo.undoes : CUndo → CStep
  | .free_obj => .alloc
  | .kfree_name => .kstrdup
  | .module_put => .moduleGet
  | .kobject_put => .kobject
  | .free_tag_set => .tagSet
  | .cleanup_mq_disk => .mqDisk
  | .clear_dev_t => .devT

/-- Undo actions of the `error_kstrdup` label: `__cas_exp_obj_release`. -/
def chain_error_kstrdup : List CUndo := [CUndo.free_obj]

/-- Undo actions of the `error_module_get` label: `kfree(dev_name)`, then
fall through to `error_kstrdup`. -/
def chain_error_module_get : List CUndo := CUndo.kfree_name :: chain_error_kstrdup

/-- Undo actions of the `error_init_kobject` label: `module_put(owner)`,
then fall through to `error_module_get`. -/
def chain_error_init_kobject : List CUndo := CUndo.module_put :: chain_error_module_get

/-- Undo actions of the `error_init_tag_set` label: `kobject_put`, whose
refcount drops to zero so `_cas_exp_obj_release` runs at once, freeing the
name, freeing the object and then dropping the module reference. This
label returns directly instead of falling through. -/
def chain_error_init_tag_set : List CUndo :=
  [CUndo.kobject_put, CUndo.kfree_name, CUndo.free_obj, CUndo.module_put]

/-- Undo actions of the `error_alloc_mq_disk` label: `blk_mq_free_tag_set`,
then fall through to `error_init_tag_set`. -/
def chain_error_alloc_mq_disk : List CUndo :=
  CUndo.free_tag_set :: chain_error_init_tag_set

/-- Undo actions of the `error_exp_obj_set_dev_t` label:
`cas_cleanup_mq_disk`, then fall through to `error_alloc_mq_disk`. Note
that this chain does not contain `_cas_exp_obj_clear_dev_t`. -/
def chain_error_set_dev_t : List CUndo :=
  CUndo.cleanup_mq_disk :: chain_error_alloc_mq_disk

/-- Undo actions of the `error_set_geometry` label:
`_cas_exp_obj_clear_dev_t`, then fall through to
`error_exp_obj_set_dev_t`. -/
def chain_error_set_geometry : List CUndo :=
  CUndo.clear_dev_t :: chain_error_set_dev_t

/-- The resources `cas_exp_obj_create` acquires: the exported object
allocation, the duplicated name, the module reference, the registered
kobject, the tag set, the mq disk, and the applied partition-hiding of the
backing whole disk. -/
structure CRes where
  obj : Bool
  name : Bool
  modRef : Bool
  kobj : Bool
  tags : Bool
  mq : Bool
  partsHidden : Bool
deriving DecidableEq, Repr

/-- The state before `cas_exp_obj_create` runs: nothing held. -/
def CRes.empty : CRes := ⟨false, false, false, false, false, false, false⟩

/-- Effect of one undo action on the held resources (`kobject_put` releases
the registered kobject; the frees it triggers are separate entries of the
undo chains). -/
def CRes.applyUndo : CRes → CUndo → CRes
  | r, .free_obj => ⟨false, r.name, r.modRef, r.kobj, r.tags, r.mq, r.partsHidden⟩
  | r, .kfree_name => ⟨r.obj, false, r.modRef, r.kobj, r.tags, r.mq, r.partsHidden⟩
  | r, .module_put => ⟨r.obj, r.name, false, r.kobj, r.tags, r.mq, r.partsHidden⟩
  | r, .kobject_put => ⟨r.obj, r.name, r.modRef, false, r.tags, r.mq, r.partsHidden⟩
  | r, .free_tag_set => ⟨r.obj, r.name, r.modRef, r.kobj, false, r.mq, r.partsHidden⟩
  | r, .cleanup_mq_disk => ⟨r.obj, r.name, r.modRef, r.kobj, r.tags, false, r.partsHidden⟩
  | r, .clear_dev_t => ⟨r.obj, r.name, r.modRef, r.kobj, r.tags, r.mq, false⟩

/-- Folds a whole undo chain over the held resources. -/
def CRes.applyUndos (r : CRes) (us : List CUndo) : CRes :=
  us.foldl CRes.applyUndo r

/-- Result of a `cas_exp_obj_create` run: the call outcome, the steps that
completed (in completion order), the undo actions performed (in execution
order), and the resources still held afterwards. -/
structure CreateOut where
  res : KRes
  completed : List CStep
  undos : List CUndo
  st : CRes
deriving DecidableEq, Repr

/-- Embedding of `cas_exp_obj_create` (exp_obj.c lines 402-506). `nameLen`
is `strlen(dev_name)`; `whole` says the backing device is a whole disk (so
`_cas_exp_obj_hide_parts` applies partition hiding); `hasGeom` says
`ops->set_geometry` is non-NULL; `fails` says which steps' callees fail;
`failHide`/`failMinors` select the failure point inside
`_cas_exp_obj_set_dev_t` (partition deletion, which restores the bottom
disk by rescanning before returning, versus `cas_disk_allocate_minors`,
which returns after the hiding is already applied). -/
def cas_exp_obj_create (nameLen : Nat) (whole hasGeom : Bool)
    (fails : CStep → Bool) (failHide failMinors : Bool) : CreateOut :=
  if DISK_NAME_LEN ≤ nameLen then
    ⟨.err EINVAL, [], [], CRes.empty⟩
  else if fails .alloc then
    ⟨.err ENOMEM, [], [], CRes.empty⟩
  else if fails .kstrdup then
    ⟨.err ENOMEM, [CStep.alloc], chain_error_kstrdup,
      CRes.applyUndos ⟨true, false, false, false, false, false, false⟩
        chain_error_kstrdup⟩
  else if fails .moduleGet then
    ⟨.err ENAVAIL, [CStep.alloc, CStep.kstrdup], chain_error_module_get,
      CRes.applyUndos ⟨true, true, false, false, false, false, false⟩
        chain_error_module_get⟩
  else if fails .kobject then
    ⟨.err ECALLEE, [CStep.alloc, CStep.kstrdup, CStep.moduleGet],
      chain_error_init_kobject,
      CRes.applyUndos ⟨true, true, true, false, false, false, false⟩
        chain_error_init_kobject⟩
  else if fails .tagSet then
    ⟨.err ECALLEE, [CStep.alloc, CStep.kstrdup, CStep.moduleGet, CStep.kobject],
      chain_error_init_tag_set,
      CRes.applyUndos ⟨true, true, true, true, false, false, false⟩
        chain_error_init_tag_set⟩
  else if fails .mqDisk then
    ⟨.err ECALLEE,
      [CStep.alloc, CStep.kstrdup, CStep.moduleGet, CStep.kobject, CStep.tagSet],
      chain_error_alloc_mq_disk,
      CRes.applyUndos ⟨true, true, true, true, true, false, false⟩
        chain_error_alloc_mq_disk⟩
  else if whole && failHide then
    ⟨.err EINVAL,
      [CStep.alloc, CStep.kstrdup, CStep.moduleGet, CStep.kobject, CStep.tagSet,
        CStep.mqDisk],
      chain_error_set_dev_t,
      CRes.applyUndos ⟨true, true, true, true, true, true, false⟩
        chain_error_set_dev_t⟩
  else if failMinors then
    ⟨.err EINVAL,
      [CStep.alloc, CStep.kstrdup, CStep.moduleGet, CStep.kobject, CStep.tagSet,
        CStep.mqDisk],
      chain_error_set_dev_t,
      CRes.applyUndos ⟨true, true, true, true, true, true, whole⟩
        chain_error_set_dev_t⟩
  else if hasGeom && fails .geometry then
    ⟨.err ECALLEE,
      [CStep.alloc, CStep.kstrdup, CStep.moduleGet, CStep.kobject, CStep.tagSet,
        CStep.mqDisk, CStep.devT],
      chain_error_set_geometry,
      CRes.applyUndos ⟨true, true, true, true, true, true, whole⟩
        chain_error_set_geometry⟩
  else
    ⟨.ok,
      [CStep.alloc, CStep.kstrdup, CStep.moduleGet, CStep.kobject, CStep.tagSet,
        CStep.mqDisk, CStep.devT] ++ (if hasGeom then [CStep.geometry] else []),
      [],
      ⟨true, true, true, true, true, true, whole⟩⟩

/-- A `cas_exp_obj_create` run (with a 3-character name) in which exactly
the step `s` has a failing callee, used to quantify over single-failure
scenarios. -/
def createFailAt (whole hasGeom : Bool) (s : CStep) (failHide failMinors : Bool) :
    CreateOut :=
  cas_exp_obj_create 3 whole hasGeom (fun x => x == s) failHide failMinors

/-! ## Theorems -/

/-- Claim C6: `lock` fails with `-EBUSY` exactly when the opener count is
nonzero at call time, and succeeds setting the claimed flag when the count
is zero; while the claimed flag is set every open attempt is rejected with
an error that leaves the state unchanged; unlock clears the flag. -/
theorem C6_lock_busy_iff (s : DskOpenSt) :
    ((cas_exp_obj_lock s).1 = KRes.err EBUSY ↔ s.openers ≠ 0) ∧
    (s.openers = 0 → cas_exp_obj_lock s = (KRes.ok, ⟨0, true⟩)) ∧
    (s.claimed = true → _cas_exp_obj_open s = (KRes.err ENAVAIL, s)) ∧
    (cas_exp_obj_unlock s).2.claimed = false := by
  refine ⟨?_, ?_, ?_, ?_⟩
  · constructor
    · intro h hz
      simp [cas_exp_obj_lock, hz] at h
    · intro hz
      simp [cas_exp_obj_lock, hz]
  · intro hz
    simp [cas_exp_obj_lock, hz]
  · intro hc
    simp [_cas_exp_obj_open, hc]
  · rfl

/-- Claim C6, witness: concrete instances of every hypothesis of
`C6_lock_busy_iff` at the state with one opener and at the claimed state. -/
theorem C6_lock_busy_iff_witness :
    (cas_exp_obj_lock ⟨1, false⟩).1 = KRes.err EBUSY ∧
    cas_exp_obj_lock ⟨0, false⟩ = (KRes.ok, ⟨0, true⟩) ∧
    _cas_exp_obj_open ⟨0, true⟩ = (KRes.err ENAVAIL, ⟨0, true⟩) := by
  refine ⟨?_, ?_, ?_⟩
  · exact (C6_lock_busy_iff ⟨1, false⟩).1.2 (by decide)
  · exact (C6_lock_busy_iff ⟨0, false⟩).2.1 rfl
  · exact (C6_lock_busy_iff ⟨0, true⟩).2.2.1 rfl

/-- Claim C9: an open attempt on an unclaimed device whose opener count is
already `UINT_MAX` returns `-EBUSY` and leaves the count unchanged; an open
attempt on a claimed device returns `-ENAVAIL` without changing the count;
hence an open attempt never pushes the opener count above `UINT_MAX`. -/
theorem C9_openers_no_overflow (s : DskOpenSt) :
    (s.claimed = false → s.openers = UINT_MAX →
      _cas_exp_obj_open s = (KRes.err EBUSY, s)) ∧
    (s.claimed = true → _cas_exp_obj_open s = (KRes.err ENAVAIL, s)) ∧
    (s.openers ≤ UINT_MAX → (_cas_exp_obj_open s).2.openers ≤ UINT_MAX) := by
  refine ⟨?_, ?_, ?_⟩
  · intro hc hm
    simp [_cas_exp_obj_open, hc, hm]
  · intro hc
    simp [_cas_exp_obj_open, hc]
  · intro hle
    by_cases hc : s.claimed = false
    · by_cases hm : s.openers = UINT_MAX
      · simp [_cas_exp_obj_open, hc, hm]
      · simp only [_cas_exp_obj_open, hc, hm, if_true, if_false]
        exact Nat.succ_le_of_lt (Nat.lt_of_le_of_ne hle hm)
    · simp only [_cas_exp_obj_open, hc, if_false]
      exact hle

/-- Claim C9, witness: `C9_openers_no_overflow` evaluated at the saturated
unclaimed state and at a claimed state. -/
theorem C9_openers_no_overflow_witness :
    _cas_exp_obj_open ⟨UINT_MAX, false⟩ = (KRes.err EBUSY, ⟨UINT_MAX, false⟩) ∧
    _cas_exp_obj_open ⟨7, true⟩ = (KRes.err ENAVAIL, ⟨7, true⟩) ∧
    (_cas_exp_obj_open ⟨UINT_MAX, false⟩).2.openers ≤ UINT_MAX := by
  refine ⟨?_, ?_, ?_⟩
  · exact (C9_openers_no_overflow ⟨UINT_MAX, false⟩).1 rfl rfl
  · exact (C9_openers_no_overflow ⟨7, true⟩).2.1 rfl
  · exact (C9_openers_no_overflow ⟨UINT_MAX, false⟩).2.2 (Nat.le_refl _)

/-- Claim C10: destroying a disk handle whose `exp_obj` slot is NULL returns
the `-ENODEV` error (an ordinary error return, not a `BUG_ON` abort) and
performs no teardown action at all. -/
theorem C10_destroy_missing_object :
    cas_exp_obj_destroy none = (KRes.err ENODEV, []) ∧
    (cas_exp_obj_destroy none).1 ≠ KRes.bug := by
  exact ⟨rfl, by decide⟩

/-! ### Claim C1: queue worker drains before exiting -/

/-- Helper: the queue worker's loop condition is false exactly when the
stop flag is set and no I/O is pending. -/
theorem queue_loop_cond_false_iff (stop : Bool) (pending : Nat) :
    queue_loop_cond stop pending = false ↔ stop = true ∧ pending = 0 := by
  cases stop <;> simp [queue_loop_cond]

/-- Helper: whenever the `queue_thread_run` loop exits, the state it
observed at the loop check has the stop flag set and zero pending I/O. -/
theorem queue_thread_run_exit (evs : List QEvent) :
    ∀ s0 s, queue_thread_run evs s0 = some s → s.stop = true ∧ s.pending = 0 := by
  induction evs with
  | nil =>
      intro s0 s h
      exact absurd h (by simp [queue_thread_run])
  | cons e evs ih =>
      intro s0 s h
      simp only [queue_thread_run] at h
      split at h
      · split at h
        · exact ih _ _ h
        · next hcond =>
            have hc := Bool.eq_false_iff.mpr hcond
            have hsz := (queue_loop_cond_false_iff _ _).mp hc
            cases h
            exact hsz
      · exact ih _ _ h

/-- Claim C1: the I/O queue worker's loop condition
`!stop-flag || pending > 0` is false exactly when the stop flag is set and
the pending count is zero, and for every pattern of enqueues and stop
signals, whenever the run-loop exits it does so with the stop flag set and
zero pending I/O — so once `cas_stop_queue_thread` (which blocks until
this exit completes `info->compl`) returns, the queue's pending count is
zero. -/
theorem C1_queue_worker_drained :
    (∀ stop pending, queue_loop_cond stop pending = false ↔
      stop = true ∧ pending = 0) ∧
    ∀ evs s0 s, queue_thread_run evs s0 = some s →
      s.stop = true ∧ s.pending = 0 :=
  ⟨queue_loop_cond_false_iff, fun evs s0 s h => queue_thread_run_exit evs s0 s h⟩

/-- Claim C1, witness: a run in which two items are enqueued together with
the stop signal exits, and `C1_queue_worker_drained` applied to it yields
the drained final state. -/
theorem C1_queue_worker_drained_witness :
    (queue_loop_cond true 0 = false ↔ true = true ∧ (0 : Nat) = 0) ∧
    (QState.mk 0 true).stop = true ∧ (QState.mk 0 true).pending = 0 :=
  ⟨C1_queue_worker_drained.1 true 0,
    C1_queue_worker_drained.2 [⟨2, true, 0⟩] ⟨0, false⟩ ⟨0, true⟩ (by decide)⟩

/-! ### Claim C2: fastest-queue selection -/

/-- Helper: a left fold of `Nat.min` never exceeds its starting value. -/
theorem foldl_min_le_init (l : List Nat) : ∀ m : Nat, l.foldl Nat.min m ≤ m := by
  induction l with
  | nil => intro m; exact Nat.le_refl m
  | cons p rest ih =>
      intro m
      simp only [List.foldl_cons]
      exact Nat.le_trans (ih (Nat.min m p)) (Nat.min_le_left m p)

/-- Helper: a left fold of `Nat.min` is a lower bound of the list. -/
theorem foldl_min_le_getD (l : List Nat) :
    ∀ m j, j < l.length → l.foldl Nat.min m ≤ l.getD j 0 := by
  induction l with
  | nil => intro m j h; exact absurd h (Nat.not_lt_zero j)
  | cons p rest ih =>
      intro m j h
      cases j with
      | zero =>
          simp only [List.getD_cons_zero, List.foldl_cons]
          exact Nat.le_trans (foldl_min_le_init rest (Nat.min m p))
            (Nat.min_le_right m p)
      | succ j =>
          simp only [List.getD_cons_succ, List.foldl_cons]
          exact ih (Nat.min m p) j (by simpa [Nat.succ_lt_succ_iff] using h)

/-- Helper: once the running minimum is zero, `fqAux` returns at once,
reading no further pending count. -/
theorem fqAux_min_zero (l : List Nat) (i minIdx reads : Nat) :
    fqAux l i minIdx 0 reads = (minIdx, 0, reads) := by
  cases l with
  | nil => rfl
  | cons p rest => simp [fqAux]

/-- Helper: the minimum `fqAux` returns is the fold of `Nat.min` over the
remaining counts — the zero short-circuit cannot change it, since zero is
the least possible value. -/
theorem fqAux_min (l : List Nat) : ∀ i minIdx minP reads,
    (fqAux l i minIdx minP reads).2.1 = l.foldl Nat.min minP := by
  induction l with
  | nil => intro i a m r; rfl
  | cons p rest ih =>
      intro i a m r
      by_cases hm : m = 0
      · subst hm
        have h1 : (p :: rest).foldl Nat.min 0 ≤ 0 := foldl_min_le_init _ 0
        rw [fqAux_min_zero]
        exact (Nat.le_zero.mp h1).symm
      · by_cases hp : p < m
        · simp only [fqAux, if_neg hm, if_pos hp, ih, List.foldl_cons]
          have hmp : Nat.min m p = p := by
            show min m p = p
            omega
          rw [hmp]
        · simp only [fqAux, if_neg hm, if_neg hp, ih, List.foldl_cons]
          have hmp : Nat.min m p = m := by
            show min m p = m
            omega
          rw [hmp]

/-- Helper: `fqAux` keeps the current best, or moves to a position of the
remaining list holding a strictly smaller count than every earlier
remaining position and than the incoming minimum — first-encountered tie
breaking. -/
theorem fqAux_first_min (l : List Nat) : ∀ i minIdx minP reads,
    ((fqAux l i minIdx minP reads).1 = minIdx ∧
      (fqAux l i minIdx minP reads).2.1 = minP) ∨
    (∃ k, k < l.length ∧ (fqAux l i minIdx minP reads).1 = i + k ∧
      l.getD k 0 = (fqAux l i minIdx minP reads).2.1 ∧
      (fqAux l i minIdx minP reads).2.1 < minP ∧
      ∀ j, j < k → (fqAux l i minIdx minP reads).2.1 < l.getD j 0) := by
  induction l with
  | nil => intro i a m r; left; exact ⟨rfl, rfl⟩
  | cons p rest ih =>
      intro i a m r
      by_cases hm : m = 0
      · left
        subst hm
        simp [fqAux]
      · by_cases hp : p < m
        · have he : fqAux (p :: rest) i a m r = fqAux rest (i + 1) i p (r + 1) := by
            simp only [fqAux, if_neg hm, if_pos hp]
          rw [he]
          rcases ih (i + 1) i p (r + 1) with ⟨h1, h2⟩ | ⟨k, hk, h1, h2, h3, h4⟩
          · right
            refine ⟨0, Nat.succ_pos _, ?_, ?_, ?_, ?_⟩
            · rw [h1]; omega
            · rw [List.getD_cons_zero, h2]
            · rw [h2]; exact hp
            · intro j hj; exact absurd hj (Nat.not_lt_zero j)
          · right
            refine ⟨k + 1, Nat.succ_lt_succ hk, ?_, ?_, ?_, ?_⟩
            · rw [h1]; omega
            · rw [List.getD_cons_succ]; exact h2
            · exact Nat.lt_trans h3 hp
            · intro j hj
              cases j with
              | zero => rw [List.getD_cons_zero]; exact h3
              | succ j =>
                  rw [List.getD_cons_succ]
                  exact h4 j (Nat.lt_of_succ_lt_succ hj)
        · have he : fqAux (p :: rest) i a m r = fqAux rest (i + 1) a m (r + 1) := by
            simp only [fqAux, if_neg hm, if_neg hp]
          rw [he]
          rcases ih (i + 1) a m (r + 1) with ⟨h1, h2⟩ | ⟨k, hk, h1, h2, h3, h4⟩
          · left; exact ⟨h1, h2⟩
          · right
            refine ⟨k + 1, Nat.succ_lt_succ hk, ?_, ?_, h3, ?_⟩
            · rw [h1]; omega
            · rw [List.getD_cons_succ]; exact h2
            · intro j hj
              cases j with
              | zero =>
                  rw [List.getD_cons_zero]
                  exact Nat.lt_of_lt_of_le h3 (Nat.le_of_not_lt hp)
              | succ j =>
                  rw [List.getD_cons_succ]
                  exact h4 j (Nat.lt_of_succ_lt_succ hj)

/-- Helper: if the first zero of the remaining counts sits at position `k`,
the scan reads exactly `k + 1` more pending counts and stops. -/
theorem fqAux_reads_first_zero (l : List Nat) : ∀ i minIdx minP reads k,
    minP ≠ 0 → k < l.length → l.getD k 0 = 0 →
    (∀ j, j < k → l.getD j 0 ≠ 0) →
    (fqAux l i minIdx minP reads).2.2 = reads + k + 1 := by
  induction l with
  | nil => intro i a m r k hm hk hz hpre; exact absurd hk (Nat.not_lt_zero k)
  | cons p rest ih =>
      intro i a m r k hm hk hz hpre
      cases k with
      | zero =>
          have hp0 : p = 0 := by simpa using hz
          subst hp0
          simp only [fqAux, if_neg hm, if_pos (Nat.pos_of_ne_zero hm)]
          rw [fqAux_min_zero]
      | succ k =>
          have hp0 : p ≠ 0 := by simpa using hpre 0 (Nat.succ_pos k)
          have hz' : rest.getD k 0 = 0 := by simpa using hz
          have hk' : k < rest.length := by simpa [Nat.succ_lt_succ_iff] using hk
          have hpre' : ∀ j, j < k → rest.getD j 0 ≠ 0 := fun j hj => by
            simpa using hpre (j + 1) (Nat.succ_lt_succ hj)
          by_cases hp : p < m
          · simp only [fqAux, if_neg hm, if_pos hp]
            rw [ih (i + 1) i p (r + 1) k hp0 hk' hz' hpre']
            omega
          · simp only [fqAux, if_neg hm, if_neg hp]
            rw [ih (i + 1) a m (r + 1) k hm hk' hz' hpre']
            omega

/-- Claim C2: `cache_get_fastest_porter_queue` returns the first
(lowest-index) queue attaining the minimum pending count — its count is a
lower bound of all counts, and strictly below every earlier queue's count;
when a first zero count sits at index `k` exactly `k + 1` counts are read
before the scan stops; in particular `[5,3,3,8]` selects index 1 (after
reading all four counts) and `[0,0,0]` selects index 0 after reading only
queue 0's count. -/
theorem C2_fastest_queue_first_min :
    (∀ p rest,
      (cache_get_fastest_porter_queue (p :: rest)).1 < (p :: rest).length ∧
      (∀ j, j < (p :: rest).length →
        (p :: rest).getD (cache_get_fastest_porter_queue (p :: rest)).1 0 ≤
          (p :: rest).getD j 0) ∧
      (∀ j, j < (cache_get_fastest_porter_queue (p :: rest)).1 →
        (p :: rest).getD (cache_get_fastest_porter_queue (p :: rest)).1 0 <
          (p :: rest).getD j 0)) ∧
    (∀ ps k, k < List.length ps → List.getD ps k 0 = 0 →
      (∀ j, j < k → List.getD ps j 0 ≠ 0) →
      (cache_get_fastest_porter_queue ps).2.2 = k + 1) ∧
    cache_get_fastest_porter_queue [5, 3, 3, 8] = (1, 3, 4) ∧
    cache_get_fastest_porter_queue [0, 0, 0] = (0, 0, 1) := by
  refine ⟨?_, ?_, by decide, by decide⟩
  · intro p rest
    have hval := fqAux_min rest 1 0 p 1
    have hgetD : (p :: rest).getD (fqAux rest 1 0 p 1).1 0 = (fqAux rest 1 0 p 1).2.1 := by
      rcases fqAux_first_min rest 1 0 p 1 with ⟨h1, h2⟩ | ⟨k, hk, h1, h2, h3, h4⟩
      · rw [h1, List.getD_cons_zero, h2]
      · rw [h1, Nat.add_comm 1 k, List.getD_cons_succ]; exact h2
    refine ⟨?_, ?_, ?_⟩
    · rcases fqAux_first_min rest 1 0 p 1 with ⟨h1, _⟩ | ⟨k, hk, h1, _, _, _⟩
      · show (fqAux rest 1 0 p 1).1 < rest.length + 1
        omega
      · show (fqAux rest 1 0 p 1).1 < rest.length + 1
        omega
    · intro j hj
      show (p :: rest).getD (fqAux rest 1 0 p 1).1 0 ≤ (p :: rest).getD j 0
      rw [hgetD, hval]
      cases j with
      | zero => rw [List.getD_cons_zero]; exact foldl_min_le_init rest p
      | succ j =>
          rw [List.getD_cons_succ]
          exact foldl_min_le_getD rest p j (by simpa [Nat.succ_lt_succ_iff] using hj)
    · intro j hj
      have hj' : j < (fqAux rest 1 0 p 1).1 := hj
      show (p :: rest).getD (fqAux rest 1 0 p 1).1 0 < (p :: rest).getD j 0
      rw [hgetD]
      rcases fqAux_first_min rest 1 0 p 1 with ⟨h1, _⟩ | ⟨k, hk, h1, h2, h3, h4⟩
      · rw [h1] at hj'; exact absurd hj' (Nat.not_lt_zero j)
      · rw [h1] at hj'
        cases j with
        | zero => rw [List.getD_cons_zero]; exact h3
        | succ j =>
            rw [List.getD_cons_succ]
            exact h4 j (by omega)
  · intro ps k hk hz hpre
    cases ps with
    | nil => exact absurd hk (Nat.not_lt_zero k)
    | cons p rest =>
        cases k with
        | zero =>
            have hp0 : p = 0 := by simpa using hz
            subst hp0
            show (fqAux rest 1 0 0 1).2.2 = 1
            rw [fqAux_min_zero]
        | succ k =>
            have hp0 : p ≠ 0 := by simpa using hpre 0 (Nat.succ_pos k)
            have hz' : rest.getD k 0 = 0 := by simpa using hz
            have hk' : k < rest.length := by simpa [Nat.succ_lt_succ_iff] using hk
            have hpre' : ∀ j, j < k → rest.getD j 0 ≠ 0 := fun j hj => by
              simpa using hpre (j + 1) (Nat.succ_lt_succ hj)
            show (fqAux rest 1 0 p 1).2.2 = k + 1 + 1
            rw [fqAux_reads_first_zero rest 1 0 p 1 k hp0 hk' hz' hpre']
            omega

/-- Claim C2, witness: `C2_fastest_queue_first_min` applied to the counts
`[4, 0, 9]`, whose first zero is at index 1, gives exactly 2 reads. -/
theorem C2_fastest_queue_first_min_witness :
    (cache_get_fastest_porter_queue [4, 0, 9]).2.2 = 2 :=
  C2_fastest_queue_first_min.2.1 [4, 0, 9] 1 (by decide) (by decide)
    (fun j hj => by
      have hj0 : j = 0 := by omega
      subst hj0
      decide)

/-! ### Claim C5: cleaner iteration -/

/-- Claim C5: in each cleaner iteration, a requested stop exits the loop
at once with no cleaning pass; otherwise the kicked flag is cleared, the
pass runs on the queue chosen by `cache_get_fastest_porter_queue`, and the
thread then blocks indefinitely when the delivered interval is the
disabled sentinel and with timeout equal to the interval otherwise; both
waits wake exactly on the kicked flag or the stop flag. -/
theorem C5_cleaner_iteration (stop kicked : Bool) (pendings : List Nat) (ms : Nat) :
    (stop = true →
      cleaner_iteration stop kicked pendings ms = ⟨true, kicked, none, none⟩) ∧
    (stop = false →
      cleaner_iteration stop kicked pendings ms =
        ⟨false, false, some (cache_get_fastest_porter_queue pendings).1,
          some (if ms = OCF_CLEANER_DISABLE then CleanerWait.indefinite
                else CleanerWait.timeout ms)⟩) ∧
    (stop = false → ms = OCF_CLEANER_DISABLE →
      (cleaner_iteration stop kicked pendings ms).wait =
        some CleanerWait.indefinite) ∧
    (stop = false → ms ≠ OCF_CLEANER_DISABLE →
      (cleaner_iteration stop kicked pendings ms).wait =
        some (CleanerWait.timeout ms)) ∧
    (cleaner_wait_wakes kicked stop = true ↔ kicked = true ∨ stop = true) := by
  refine ⟨?_, ?_, ?_, ?_, ?_⟩
  · intro h; simp [cleaner_iteration, h]
  · intro h; simp [cleaner_iteration, h]
  · intro h hd; simp [cleaner_iteration, h, hd]
  · intro h hd; simp [cleaner_iteration, h, hd]
  · cases kicked <;> cases stop <;> simp [cleaner_wait_wakes]

/-- Claim C5, witness: `C5_cleaner_iteration` at a running, kicked cleaner
whose pass reported a 250 ms interval over the counts `[5, 3, 3, 8]`. -/
theorem C5_cleaner_iteration_witness :
    cleaner_iteration false true [5, 3, 3, 8] 250 =
      ⟨false, false, some 1, some (CleanerWait.timeout 250)⟩ ∧
    (cleaner_iteration false true [5, 3, 3, 8] 250).wait =
      some (CleanerWait.timeout 250) := by
  constructor
  · have h := (C5_cleaner_iteration false true [5, 3, 3, 8] 250).2.1 rfl
    rw [h]
    decide
  · exact (C5_cleaner_iteration false true [5, 3, 3, 8] 250).2.2.2.1 rfl (by decide)

/-! ### Claim C4: double activation -/

/-- Claim C4, counterexample: activating an already-activated handle does
not return an already-activated error — `BUG_ON(dsk->exp_obj->activated)`
makes the second call an assertion failure (kernel abort), which is not an
error return at all; no OS registration is attempted. -/
theorem C4_double_activate_counterexample :
    (cas_exp_obj_activate true ⟨true, false, true, true⟩).1 = KRes.bug ∧
    KRes.isErrCode (cas_exp_obj_activate true ⟨true, false, true, true⟩).1 = false ∧
    (cas_exp_obj_activate true ⟨true, false, true, true⟩).2.2 = [] := by
  decide

/-- Claim C4, amended: a second `cas_exp_obj_activate` on a handle whose
activation flag is already set is treated as a fatal programming error
(`BUG_ON` assertion abort) rather than an error return, and performs no
additional OS registration, in every environment. -/
theorem C4_double_activate_amended (env : ActEnv) :
    cas_exp_obj_activate true env = (KRes.bug, true, []) := rfl

/-! ### Claim C7: pre-existing device path -/

/-- Claim C7: when a file already exists at `/dev/<name>` (and the path
buffer allocation succeeds), `cas_exp_obj_activate` returns `-EEXIST`,
performs no OS action at all (in particular no `add_disk` registration),
and leaves the activation flag false — whatever the holder-link and
symlink environment would have done. -/
theorem C7_activate_path_exists (bok sok : Bool) :
    cas_exp_obj_activate false ⟨true, true, bok, sok⟩ =
      (KRes.err EEXIST, false, []) := rfl

/-! ### Claim C8: name-length boundary -/

/-- Claim C8: a name of length `DISK_NAME_LEN - 1` (the maximum allowed,
since `strlen(dev_name) >= DISK_NAME_LEN` is rejected) passes validation —
with no failing step the whole create succeeds — while a name one
character longer fails with `-EINVAL` before any step runs: nothing is
completed, nothing is undone, and no resource is held. -/
theorem C8_name_length_boundary (whole hasGeom : Bool) (fails : CStep → Bool)
    (failHide failMinors : Bool) :
    (cas_exp_obj_create (DISK_NAME_LEN - 1) whole hasGeom (fun _ => false)
        false false).res = KRes.ok ∧
    cas_exp_obj_create DISK_NAME_LEN whole hasGeom fails failHide failMinors =
      ⟨KRes.err EINVAL, [], [], CRes.empty⟩ := by
  constructor
  · cases whole <;> cases hasGeom <;> rfl
  · simp [cas_exp_obj_create]

/-! ### Claim C3: unwind on constructor failure -/

/-- Claim C3, counterexample: when `_cas_init_tag_set` fails, the completed
steps are allocation, name duplication, module reference and kobject
registration, but the undo path (`kobject_put`, whose release callback
frees the name and the object before dropping the module reference) does
not reverse them in reverse order of completion: the module reference is
released last, after the object is freed. -/
theorem C3_reverse_order_counterexample :
    KRes.isErrCode (cas_exp_obj_create 3 false false (fun x => x == CStep.tagSet)
        false false).res = true ∧
    (cas_exp_obj_create 3 false false (fun x => x == CStep.tagSet)
        false false).undos.map CUndo.undoes ≠
      (cas_exp_obj_create 3 false false (fun x => x == CStep.tagSet)
        false false).completed.reverse := by
  decide

/-- Claim C3, amended: on any failing step of `cas_exp_obj_create`, exactly
the completed steps are undone (the undos are a permutation of them) and
the undo order is the reverse of completion order, except that on failures
at or after the tag-set step the module reference is released last (after
the name and the object are freed, by the kobject release callback); every
resource is restored, except that a failure of minor allocation inside the
device-number step on a whole-disk backing device leaves the partition
hiding applied. For `cas_exp_obj_activate`, a holder-link or symlink
failure produces an error return with the gendisk deleted again and the
activation flag false. -/
theorem C3_unwind_amended :
    (∀ (whole hasGeom failHide failMinors : Bool) (s : CStep),
      KRes.isErrCode (createFailAt whole hasGeom s failHide failMinors).res = true →
      ((createFailAt whole hasGeom s failHide failMinors).undos.map
          CUndo.undoes).isPerm
        (createFailAt whole hasGeom s failHide failMinors).completed = true ∧
      ((createFailAt whole hasGeom s failHide failMinors).undos.map
          CUndo.undoes).filter (fun x => x != CStep.moduleGet) =
        ((createFailAt whole hasGeom s failHide failMinors).completed.filter
          (fun x => x != CStep.moduleGet)).reverse ∧
      (CUndo.kobject_put ∉ (createFailAt whole hasGeom s failHide failMinors).undos →
        (createFailAt whole hasGeom s failHide failMinors).undos.map CUndo.undoes =
          (createFailAt whole hasGeom s failHide failMinors).completed.reverse) ∧
      (CUndo.kobject_put ∈ (createFailAt whole hasGeom s failHide failMinors).undos →
        ((createFailAt whole hasGeom s failHide failMinors).undos.map
            CUndo.undoes).getLast? = some CStep.moduleGet) ∧
      ((createFailAt whole hasGeom s failHide failMinors).st.obj = false ∧
        (createFailAt whole hasGeom s failHide failMinors).st.name = false ∧
        (createFailAt whole hasGeom s failHide failMinors).st.modRef = false ∧
        (createFailAt whole hasGeom s failHide failMinors).st.kobj = false ∧
        (createFailAt whole hasGeom s failHide failMinors).st.tags = false ∧
        (createFailAt whole hasGeom s failHide failMinors).st.mq = false) ∧
      ((createFailAt whole hasGeom s failHide failMinors).st.partsHidden = true →
        whole = true ∧ failMinors = true)) ∧
    (∀ bok sok : Bool, (bok = false ∨ sok = false) →
      KRes.isErrCode (cas_exp_obj_activate false ⟨true, false, bok, sok⟩).1 = true ∧
      (cas_exp_obj_activate false ⟨true, false, bok, sok⟩).2.1 = false ∧
      AAct.del_gendisk ∈ (cas_exp_obj_activate false ⟨true, false, bok, sok⟩).2.2) := by
  constructor
  · decide
  · decide

/-- Claim C3, amended claim's witness: `C3_unwind_amended` applied to the
run failing at the mq-disk step and to the activation whose holder link
fails. -/
theorem C3_unwind_amended_witness :
    ((createFailAt false false CStep.mqDisk false false).undos.map
        CUndo.undoes).isPerm
      (createFailAt false false CStep.mqDisk false false).completed = true ∧
    AAct.del_gendisk ∈ (cas_exp_obj_activate false ⟨true, false, false, true⟩).2.2 :=
  ⟨(C3_unwind_amended.1 false false false false CStep.mqDisk (by decide)).1,
    (C3_unwind_amended.2 false true (Or.inl rfl)).2.2⟩

end CasCache
